import Mathlib

/-!
Verification of the CoxOrb time-alignment and replay-synchronization core.

The definitions below are a shallow embedding of the relevant parts of
`src/app.py` and `src/html_utils.py`:

* `parse_time_str` embeds the elapsed-time parser `parse_time_str`
  (app.py, lines 21-44).  Python floats are modelled as exact rationals;
  Python `round` (round-half-to-even) is modelled by `bankersRound`;
  Python `int(...)` / `float(...)` string conversion is modelled by
  `pyInt?` / `pyFloat?` on the character list (decimal literals with an
  optional sign; exponent forms, `inf`/`nan` spellings, underscores and
  surrounding whitespace are out of scope of the claims and are treated
  as parse failures, which the wrapper maps to the same zero fallback
  that the real code reaches through its `except` arm).
* `splitFromSpeed` embeds the `Split (s/500m)` derivation lambda
  (app.py, line 388).
* `parse_gpx` embeds the elapsed-seconds normalization of `parse_gpx`
  (app.py, lines 75-86); absolute timestamps are rationals measured in
  seconds.
* `merge_datasets` embeds `merge_datasets` (app.py, lines 233-255):
  dropping null keys, `astype(int)` truncation toward zero (`truncQ`),
  sorting both streams, the `pd.merge_asof(..., direction=nearest,
  tolerance=5)` nearest-key match (`nearestPos`, a minimum-distance
  scan, ties to the earlier row), and the final `dropna` on
  latitude/longitude (unmatched rows yield `none` and are dropped by
  `List.filterMap`).
* `ontimeupdate` embeds the incremental playback resolver of
  `generate_audio_map_html` (html_utils.py, lines 134-170);
  `bruteNearestIdx` is the brute-force linear-scan reference the claim
  compares it against.
* `ReplayState`, `updateDataRange` and `step` embed the trim/replay
  slider logic of `generate_client_side_replay` (html_utils.py, lines
  340-348 and 481-512).  `clamp` models the DOM value sanitization of
  an `<input type=range>`: a written value is forced into the slider's
  current `[min, max]` attribute range.
-/

namespace CoxOrb

/-- Absolute value on `ℤ`, modelling `abs`/distance of integer keys. -/
def absZ (n : ℤ) : ℤ := if n < 0 then -n else n

/-- Absolute value on `ℚ`, modelling JavaScript `Math.abs`. -/
def absQ (q : ℚ) : ℚ := if q < 0 then -q else q

/-- Floor of a rational. -/
def floorQ (q : ℚ) : ℤ := ⌊q⌋

/-- Python `round` with no digits argument: round half to even. -/
def bankersRound (q : ℚ) : ℤ :=
  let f := floorQ q
  let r := q - (f : ℚ)
  if r < 1 / 2 then f
  else if 1 / 2 < r then f + 1
  else if f % 2 = 0 then f else f + 1

/-- Numpy `astype(int)` on a float column: truncation toward zero. -/
def truncQ (q : ℚ) : ℤ := if 0 ≤ q then ⌊q⌋ else -⌊-q⌋

/-- Modelled from the spec: "rounded to nearest integer" (ties upward);
the comparator the rounding claims measure the code against. -/
def roundNearestQ (q : ℚ) : ℤ := floorQ (q + 1 / 2)

/-- A value of the CSV `Elapsed Time` column as seen by `parse_time_str`:
missing/NaN/None (`pd.isna` true), an already-numeric cell, or a string. -/
inductive TimeVal where
  | nan : TimeVal
  | num : ℚ → TimeVal
  | str : String → TimeVal

/-- All characters are decimal digits. -/
def digitsOnly (cs : List Char) : Bool := cs.all Char.isDigit

/-- Value of a digit string (most significant first). -/
def digitsVal (cs : List Char) : ℕ :=
  cs.foldl (fun n c => 10 * n + (c.toNat - 48)) 0

/-- Python `int(s)` on a string: optionally signed run of digits. -/
def pyInt? (cs : List Char) : Option ℤ :=
  match cs with
  | '+' :: r => if r ≠ [] ∧ digitsOnly r = true then some ((digitsVal r : ℤ)) else none
  | '-' :: r => if r ≠ [] ∧ digitsOnly r = true then some (-(digitsVal r : ℤ)) else none
  | r => if r ≠ [] ∧ digitsOnly r = true then some ((digitsVal r : ℤ)) else none

/-- Unsigned part of Python `float(s)`: digits with an optional single
point, at least one digit overall.  Returns the integer part, the
fraction digits' value and the number of fraction digits. -/
def pyFloatParts? (cs : List Char) : Option (ℕ × ℕ × ℕ) :=
  if cs.contains '.' then
    let ip := cs.takeWhile (fun c => c ≠ '.')
    let fp := (cs.dropWhile (fun c => c ≠ '.')).drop 1
    if fp.contains '.' then none
    else if ip = [] ∧ fp = [] then none
    else if digitsOnly ip = true ∧ digitsOnly fp = true then
      some (digitsVal ip, digitsVal fp, fp.length)
    else none
  else if cs ≠ [] ∧ digitsOnly cs = true then some (digitsVal cs, 0, 0) else none

/-- Sign handling of Python `float(s)`: a leading `+`/`-` applies to the
unsigned literal; the `Bool` records a leading minus. -/
def pySignedParts? (cs : List Char) : Option (Bool × ℕ × ℕ × ℕ) :=
  match cs with
  | '+' :: r => (pyFloatParts? r).map fun p => (false, p)
  | '-' :: r => (pyFloatParts? r).map fun p => (true, p)
  | r => (pyFloatParts? r).map fun p => (false, p)

/-- Rational value of an unsigned decimal literal's parts. -/
def ratOfParts (p : ℕ × ℕ × ℕ) : ℚ := (p.1 : ℚ) + (p.2.1 : ℚ) / (10 : ℚ) ^ p.2.2

/-- Python `float(s)` on a string: optionally signed decimal literal. -/
def pyFloat? (cs : List Char) : Option ℚ :=
  (pySignedParts? cs).map fun p => if p.1 then -ratOfParts p.2 else ratOfParts p.2

/-- Python `str.split` on a colon. -/
def splitCols : List Char → List (List Char)
  | [] => [[]]
  | c :: rest =>
    if c = ':' then [] :: splitCols rest
    else
      match splitCols rest with
      | [] => [[c]]
      | h :: t => (c :: h) :: t

/-- Body of `parse_time_str` (app.py 27-42) before the `except` arm:
`none` means a Python exception (an unparsable `int(...)`/`float(...)`
component) escapes the branch computation. -/
def parse_time_body : TimeVal → Option ℤ
  | TimeVal.nan => some 0
  | TimeVal.num q => some (bankersRound q)
  | TimeVal.str s =>
    match splitCols s.toList with
    | [hPart, mPart, sPart] =>
      match pyInt? hPart, pyInt? mPart, pyFloat? sPart with
      | some hv, some mv, some sv =>
        some (bankersRound ((hv : ℚ) * 3600 + (mv : ℚ) * 60 + sv))
      | _, _, _ => none
    | [mPart, sPart] =>
      match pyInt? mPart, pyFloat? sPart with
      | some mv, some sv => some (bankersRound ((mv : ℚ) * 60 + sv))
      | _, _ => none
    | _ => some 0

/-- `parse_time_str` (app.py 21-44): the `try/except` wrapper maps any
body failure to the zero fallback. -/
def parse_time_str (v : TimeVal) : ℤ := (parse_time_body v).getD 0

/-- The `Split (s/500m)` derivation lambda (app.py 388):
`500/x if (pd.notnull(x) and x > 0) else 0`.  `none` models a
missing/NaN speed cell. -/
def splitFromSpeed (x : Option ℚ) : ℚ :=
  match x with
  | some v => if 0 < v then 500 / v else 0
  | none => 0

/-- A GPX track point as parsed from the file: coordinates plus an
absolute timestamp (seconds on a global clock, as a rational). -/
structure RawPoint where
  latitude : ℚ
  longitude : ℚ
  time : ℚ
deriving DecidableEq

/-- A row of the GPX dataframe handed to the join; `seconds_elapsed` is
`none` when the cell is NaN. -/
structure GpxRow where
  latitude : ℚ
  longitude : ℚ
  seconds_elapsed : Option ℚ
deriving DecidableEq

/-- A row of the CSV dataframe handed to the join; `rate` stands for the
performance payload columns carried through the merge. -/
structure CsvRow where
  seconds_elapsed : Option ℚ
  rate : ℚ
deriving DecidableEq

/-- A GPX row after `dropna` and `astype(int)` of `seconds_elapsed`. -/
structure GpxKeyed where
  latitude : ℚ
  longitude : ℚ
  sec : ℤ
deriving DecidableEq

/-- A CSV row after `dropna` and `astype(int)` of `seconds_elapsed`. -/
structure CsvKeyed where
  sec : ℤ
  rate : ℚ
deriving DecidableEq

/-- A row of the merged output: CSV payload plus matched coordinates. -/
structure MergedRow where
  sec : ℤ
  rate : ℚ
  latitude : ℚ
  longitude : ℚ
deriving DecidableEq

/-- `parse_gpx` (app.py 75-86), elapsed-time part: on a non-empty point
list, `seconds_elapsed` is the timestamp difference to the first point;
an empty frame is returned unchanged. -/
def parse_gpx (pts : List RawPoint) : List GpxRow :=
  match pts with
  | [] => []
  | p0 :: rest =>
    (p0 :: rest).map fun p =>
      { latitude := p.latitude, longitude := p.longitude,
        seconds_elapsed := some (p.time - p0.time) }

/-- `gpx_clean` inside `merge_datasets` (app.py 238-241): drop NaN keys,
truncate the float key to an integer. -/
def gpxKeyed (l : List GpxRow) : List GpxKeyed :=
  l.filterMap fun g =>
    g.seconds_elapsed.map fun s =>
      { latitude := g.latitude, longitude := g.longitude, sec := truncQ s }

/-- `csv_clean` inside `merge_datasets` (app.py 239-242). -/
def csvKeyed (l : List CsvRow) : List CsvKeyed :=
  l.filterMap fun p =>
    p.seconds_elapsed.map fun s => { sec := truncQ s, rate := p.rate }

/-- Ordered insertion used by `sortByKey`. -/
def insertByKey {α : Type} (key : α → ℤ) (a : α) : List α → List α
  | [] => [a]
  | b :: t => if key a < key b then a :: b :: t else b :: insertByKey key a t

/-- `sort_values(seconds_elapsed)` (app.py 244-245): sort ascending by
the integer key. -/
def sortByKey {α : Type} (key : α → ℤ) : List α → List α
  | [] => []
  | a :: t => insertByKey key a (sortByKey key t)

/-- Choose between a candidate row and the best row found so far by
absolute key distance to `t`, preferring the new (earlier) row on ties. -/
def nearBetter (t : ℤ) (g : GpxKeyed) : Option GpxKeyed → Option GpxKeyed
  | none => some g
  | some b => if absZ (t - g.sec) ≤ absZ (t - b.sec) then some g else some b

/-- The nearest-key lookup performed per left row by
`pd.merge_asof(..., direction=nearest)`: the element minimizing the
absolute key distance, ties resolved to the earlier row. -/
def nearestPos (t : ℤ) : List GpxKeyed → Option GpxKeyed
  | [] => none
  | g :: rest => nearBetter t g (nearestPos t rest)

/-- One output row of `merge_asof` with `tolerance=5` followed by the
`dropna(subset=[latitude, longitude])`: a performance row is kept only
when its nearest position row is within 5 seconds. -/
def joinRow (gpxS : List GpxKeyed) (p : CsvKeyed) : Option MergedRow :=
  match nearestPos p.sec gpxS with
  | none => none
  | some g =>
    if absZ (p.sec - g.sec) ≤ 5 then
      some { sec := p.sec, rate := p.rate,
             latitude := g.latitude, longitude := g.longitude }
    else none

/-- `merge_datasets` (app.py 233-255). -/
def merge_datasets (gpx : List GpxRow) (csv : List CsvRow) : List MergedRow :=
  List.filterMap (joinRow (sortByKey GpxKeyed.sec (gpxKeyed gpx)))
    (sortByKey CsvKeyed.sec (csvKeyed csv))

/-- The `for` loop of the audio resolver (html_utils.py 151-161):
scan the remaining points (indices from `i`) while the distance to the
probe time keeps non-increasing; `cur`/`minDiff` are the best index and
distance so far. -/
def scanPoints (t : ℚ) : List ℚ → ℕ → ℕ → ℚ → ℕ
  | [], _, cur, _ => cur
  | s :: rest, i, cur, minDiff =>
    if absQ (t - s) ≤ minDiff then scanPoints t rest (i + 1) i (absQ (t - s))
    else cur

/-- The `audio.ontimeupdate` handler (html_utils.py 140-170): resolve
the index of the point displayed for probe time `t`, starting from the
remembered `lastIdx` (restarting from 0 when the probe fell behind the
last resolved sample) but keeping `minDiff` initialized from `lastIdx`.
Returns the new `lastIdx`, which is also the displayed index. -/
def ontimeupdate (pts : List ℚ) (lastIdx : ℕ) (t : ℚ) : ℕ :=
  match pts.get? lastIdx with
  | none => lastIdx
  | some s =>
    let minDiff := absQ (t - s)
    let start := if t < s then 0 else lastIdx
    scanPoints t (pts.drop start) start lastIdx minDiff

/-- Feed a sequence of playback-time probes through the resolver,
collecting the resolved index after each tick. -/
def runProbes (pts : List ℚ) : ℕ → List ℚ → List ℕ
  | _, [] => []
  | idx, t :: ts =>
    let idx2 := ontimeupdate pts idx t
    idx2 :: runProbes pts idx2 ts

/-- Brute-force reference: index and distance of the first
minimum-distance point (scanning the whole list). -/
def bruteNearest (t : ℚ) : List ℚ → ℕ → Option (ℕ × ℚ)
  | [], _ => none
  | s :: rest, i =>
    match bruteNearest t rest (i + 1) with
    | none => some (i, absQ (t - s))
    | some (j, d) =>
      if absQ (t - s) ≤ d then some (i, absQ (t - s)) else some (j, d)

/-- Brute-force linear-scan nearest index over the whole stream. -/
def bruteNearestIdx (pts : List ℚ) (t : ℚ) : ℕ :=
  match bruteNearest t pts 0 with
  | none => 0
  | some (j, _) => j

/-- DOM value sanitization of an `<input type=range>`: a written value
is clamped into the slider's `[lo, hi]` attribute range. -/
def clamp (v lo hi : ℤ) : ℤ := if v < lo then lo else if hi < v then hi else v

/-- The client-side replay slider state: the two crop sliders' values,
the replay slider's `min`/`max` attributes, and its value
(`currentIndex`). -/
structure ReplayState where
  trimStart : ℤ
  trimEnd : ℤ
  replayMin : ℤ
  replayMax : ℤ
  replay : ℤ
deriving DecidableEq

/-- `updateDataRange` (html_utils.py 481-512) over a joined sequence of
length `N`: read both crop sliders; on overlap write `end - 1` back to
the start slider (the DOM clamps the written value into `[0, N-1]`),
while the local variable keeps the unclamped value; then retarget the
replay slider's `min`/`max` to the local `[start, end]` and force its
value inside. -/
def updateDataRange (N : ℤ) (st : ReplayState) : ReplayState :=
  let start0 := st.trimStart
  let e := st.trimEnd
  let start := if start0 ≥ e then e - 1 else start0
  let ts := if start0 ≥ e then clamp (e - 1) 0 (N - 1) else start0
  { trimStart := ts, trimEnd := e, replayMin := start, replayMax := e,
    replay := clamp st.replay start e }

/-- The user actions on the replay component: dragging the crop-start,
crop-end or replay slider to a target value. -/
inductive Op where
  | setTrimStart : ℤ → Op
  | setTrimEnd : ℤ → Op
  | seek : ℤ → Op

/-- One user action: the DOM clamps the dragged slider's value into its
current attribute range (`[0, N-1]` for the crop sliders, the stored
`[replayMin, replayMax]` for the replay slider), then the `oninput`
handler runs (`updateDataRange` for the crop sliders, `updateDisplay` —
which changes no slider state — for the replay slider). -/
def step (N : ℤ) (st : ReplayState) : Op → ReplayState
  | Op.setTrimStart v => updateDataRange N { st with trimStart := clamp v 0 (N - 1) }
  | Op.setTrimEnd v => updateDataRange N { st with trimEnd := clamp v 0 (N - 1) }
  | Op.seek v => { st with replay := clamp v st.replayMin st.replayMax }

/-- The state after the slider initialization (html_utils.py 340-348:
crop sliders get `max = N - 1`, crop end starts at `N - 1`) and the
initial `updateDataRange()` call (line 539); the replay slider's HTML
attributes start as `min=0, max=100, value=0`. -/
def initState (N : ℤ) : ReplayState :=
  updateDataRange N
    { trimStart := 0, trimEnd := N - 1, replayMin := 0, replayMax := 100, replay := 0 }

/-! ### Helper lemmas -/

theorem absZ_nonneg (n : ℤ) : 0 ≤ absZ n := by
  unfold absZ
  split <;> omega

theorem absZ_eq_zero {n : ℤ} (h : absZ n ≤ 0) : n = 0 := by
  unfold absZ at h
  split at h <;> omega

theorem absZ_self_sub (n : ℤ) : absZ (n - n) = 0 := by
  simp [absZ]

theorem mem_insertByKey {α : Type} (key : α → ℤ) (a x : α) (l : List α) :
    x ∈ insertByKey key a l ↔ x = a ∨ x ∈ l := by
  induction l with
  | nil => simp [insertByKey]
  | cons b t ih =>
    unfold insertByKey
    split
    · simp
    · simp [ih]
      tauto

theorem mem_sortByKey {α : Type} (key : α → ℤ) (x : α) (l : List α) :
    x ∈ sortByKey key l ↔ x ∈ l := by
  induction l with
  | nil => simp [sortByKey]
  | cons a t ih => simp [sortByKey, mem_insertByKey, ih]

theorem length_insertByKey {α : Type} (key : α → ℤ) (a : α) (l : List α) :
    (insertByKey key a l).length = l.length + 1 := by
  induction l with
  | nil => simp [insertByKey]
  | cons b t ih =>
    unfold insertByKey
    split <;> simp [ih]

theorem length_sortByKey {α : Type} (key : α → ℤ) (l : List α) :
    (sortByKey key l).length = l.length := by
  induction l with
  | nil => simp [sortByKey]
  | cons a t ih => simp [sortByKey, length_insertByKey, ih]

theorem nearBetter_ne_none (t : ℤ) (g : GpxKeyed) (o : Option GpxKeyed) :
    nearBetter t g o ≠ none := by
  cases o with
  | none => simp [nearBetter]
  | some b =>
    simp only [nearBetter]
    split <;> simp

theorem nearBetter_cases {t : ℤ} {g c : GpxKeyed} {o : Option GpxKeyed}
    (h : nearBetter t g o = some c) : c = g ∨ o = some c := by
  cases o with
  | none =>
    simp only [nearBetter] at h
    exact Or.inl (Option.some.inj h).symm
  | some b =>
    simp only [nearBetter] at h
    split at h
    · exact Or.inl (Option.some.inj h).symm
    · exact Or.inr (congrArg some (Option.some.inj h))

theorem nearBetter_min {t : ℤ} {g c : GpxKeyed} {o : Option GpxKeyed}
    (h : nearBetter t g o = some c) :
    absZ (t - c.sec) ≤ absZ (t - g.sec) ∧
      ∀ b, o = some b → absZ (t - c.sec) ≤ absZ (t - b.sec) := by
  cases o with
  | none =>
    have hc : c = g := (Option.some.inj h).symm
    subst hc
    exact ⟨le_refl _, by simp⟩
  | some b =>
    simp only [nearBetter] at h
    split at h
    · have hc : c = g := (Option.some.inj h).symm
      subst hc
      refine ⟨le_refl _, fun b' hb' => ?_⟩
      cases Option.some.inj hb'
      assumption
    · have hc : c = b := (Option.some.inj h).symm
      subst hc
      refine ⟨by omega, fun b' hb' => ?_⟩
      cases Option.some.inj hb'
      exact le_refl _

theorem nearestPos_eq_none {t : ℤ} {l : List GpxKeyed} :
    nearestPos t l = none ↔ l = [] := by
  cases l with
  | nil => simp [nearestPos]
  | cons g rest =>
    simp only [nearestPos]
    constructor
    · intro h
      exact absurd h (nearBetter_ne_none t g _)
    · intro h
      exact absurd h (List.cons_ne_nil g rest)

theorem nearestPos_mem_min {t : ℤ} {l : List GpxKeyed} {c : GpxKeyed}
    (h : nearestPos t l = some c) :
    c ∈ l ∧ ∀ b ∈ l, absZ (t - c.sec) ≤ absZ (t - b.sec) := by
  induction l generalizing c with
  | nil => simp [nearestPos] at h
  | cons g rest ih =>
    simp only [nearestPos] at h
    have hmin := nearBetter_min h
    have hcases := nearBetter_cases h
    cases hr : nearestPos t rest with
    | none =>
      have hrest : rest = [] := nearestPos_eq_none.mp hr
      subst hrest
      rcases hcases with hc | hc
      · constructor
        · rw [hc]
          exact List.mem_singleton.mpr rfl
        · intro b hb
          rcases List.mem_singleton.mp hb with rfl
          rw [hc]
      · rw [hr] at hc
        simp at hc
    | some c' =>
      obtain ⟨hmem', hmin'⟩ := ih hr
      constructor
      · rcases hcases with hc | hc
        · rw [hc]
          exact List.mem_cons_self g rest
        · rw [hr] at hc
          cases Option.some.inj hc
          exact List.mem_cons_of_mem g hmem'
      · intro b hb
        rcases List.mem_cons.mp hb with hbg | hbr
        · rw [hbg]
          exact hmin.1
        · exact le_trans (hmin.2 c' hr) (hmin' b hbr)

theorem filterMap_length_of_isSome {α β : Type} (f : α → Option β) (l : List α)
    (h : ∀ a ∈ l, (f a).isSome) : (l.filterMap f).length = l.length := by
  induction l with
  | nil => simp
  | cons a t ih =>
    obtain ⟨b, hb⟩ := Option.isSome_iff_exists.mp (h a (by simp))
    simp [List.filterMap_cons, hb, ih fun x hx => h x (by simp [hx])]

theorem filterMap_eq_nil_of_none {α β : Type} (f : α → Option β) (l : List α)
    (h : ∀ a ∈ l, f a = none) : l.filterMap f = [] := by
  induction l with
  | nil => simp
  | cons a t ih =>
    simp [List.filterMap_cons, h a (by simp), ih fun x hx => h x (by simp [hx])]

/-! ### Claim theorems -/

/-- C5 counterexample: the claim says a negative numeric input maps to 0
and the result is always non-negative; `parse_time_str` actually returns
the rounded negative value itself (`-5` for `-5`). -/
theorem parse_time_negative_cx :
    parse_time_str (TimeVal.num (-5)) = -5 ∧ parse_time_str (TimeVal.num (-5)) < 0 := by
  have h : parse_time_str (TimeVal.num (-5)) = -5 := by
    simp only [parse_time_str, parse_time_body]
    norm_num [bankersRound, floorQ]
  exact ⟨h, by rw [h]; norm_num⟩

/-- C5 (amended): the parser never raises — the `try/except` wrapper
turns every body failure into the 0 fallback — and always returns an
integer; NaN/None and unparsable strings map to 0, while an
already-numeric input (negative included) is returned as its Python
`round` value rather than being clamped to 0. -/
theorem parse_time_total :
    parse_time_str TimeVal.nan = 0 ∧
    (∀ q : ℚ, parse_time_str (TimeVal.num q) = bankersRound q) ∧
    (∀ s : String, parse_time_body (TimeVal.str s) = none →
      parse_time_str (TimeVal.str s) = 0) ∧
    ∀ v : TimeVal, parse_time_str v = (parse_time_body v).getD 0 := by
  refine ⟨rfl, fun q => rfl, fun s h => ?_, fun v => rfl⟩
  simp [parse_time_str, h]

/-- C5 witness: the unparsable string branch at a concrete input. -/
theorem parse_time_total_witness :
    parse_time_str (TimeVal.str ("ab:cd")) = 0 := by
  apply parse_time_total.2.2.1
  have hs : splitCols (String.toList ("ab:cd")) = [['a', 'b'], ['c', 'd']] := by decide
  have h1 : pyInt? (['a', 'b']) = none := by decide
  have hp : pySignedParts? (['c', 'd']) = none := by decide
  have h3 : pyFloat? (['c', 'd']) = none := by simp [pyFloat?, hp]
  simp only [parse_time_body, hs, h1, h3]

/-- C6 counterexample: the claim's example says `01:02:03.5 → 3723`;
Python's round-half-to-even gives 3724. -/
theorem parse_time_hms_cx :
    parse_time_str (TimeVal.str ("01:02:03.5")) = 3724 ∧ (3724 : ℤ) ≠ 3723 := by
  constructor
  · have hs : splitCols (String.toList ("01:02:03.5")) =
        [['0', '1'], ['0', '2'], ['0', '3', '.', '5']] := by decide
    have h1 : pyInt? (['0', '1']) = some 1 := by decide
    have h2 : pyInt? (['0', '2']) = some 2 := by decide
    have hp : pySignedParts? (['0', '3', '.', '5']) = some (false, 3, 5, 1) := by decide
    have h3 : pyFloat? (['0', '3', '.', '5']) = some (7 / 2) := by
      simp [pyFloat?, hp, ratOfParts]
      norm_num
    simp only [parse_time_str, parse_time_body, hs, h1, h2, h3]
    norm_num [bankersRound, floorQ]
  · norm_num

/-- C6 (amended): for every valid `H:MM:SS` or `MM:SS` string the parser
returns the component-computed total seconds rounded with Python's
round-half-to-even, so `01:02:03.5 → 3724` (not 3723) and
`15:30.5 → 930`. -/
theorem parse_time_valid_formats :
    (∀ (s : String) (hPart mPart sPart : List Char) (hv mv : ℤ) (sv : ℚ),
      splitCols s.toList = [hPart, mPart, sPart] →
      pyInt? hPart = some hv → pyInt? mPart = some mv → pyFloat? sPart = some sv →
      parse_time_str (TimeVal.str s) = bankersRound ((hv : ℚ) * 3600 + (mv : ℚ) * 60 + sv)) ∧
    (∀ (s : String) (mPart sPart : List Char) (mv : ℤ) (sv : ℚ),
      splitCols s.toList = [mPart, sPart] →
      pyInt? mPart = some mv → pyFloat? sPart = some sv →
      parse_time_str (TimeVal.str s) = bankersRound ((mv : ℚ) * 60 + sv)) ∧
    parse_time_str (TimeVal.str ("01:02:03.5")) = 3724 ∧
    parse_time_str (TimeVal.str ("15:30.5")) = 930 := by
  refine ⟨?_, ?_, ?_, ?_⟩
  · intro s hPart mPart sPart hv mv sv hsplit hh hm hsv
    simp only [parse_time_str, parse_time_body, hsplit, hh, hm, hsv, Option.getD_some]
  · intro s mPart sPart mv sv hsplit hm hsv
    simp only [parse_time_str, parse_time_body, hsplit, hm, hsv, Option.getD_some]
  · have hs : splitCols (String.toList ("01:02:03.5")) =
        [['0', '1'], ['0', '2'], ['0', '3', '.', '5']] := by decide
    have h1 : pyInt? (['0', '1']) = some 1 := by decide
    have h2 : pyInt? (['0', '2']) = some 2 := by decide
    have hp : pySignedParts? (['0', '3', '.', '5']) = some (false, 3, 5, 1) := by decide
    have h3 : pyFloat? (['0', '3', '.', '5']) = some (7 / 2) := by
      simp [pyFloat?, hp, ratOfParts]
      norm_num
    simp only [parse_time_str, parse_time_body, hs, h1, h2, h3]
    norm_num [bankersRound, floorQ]
  · have hs : splitCols (String.toList ("15:30.5")) = [['1', '5'], ['3', '0', '.', '5']] := by
      decide
    have h1 : pyInt? (['1', '5']) = some 15 := by decide
    have hp : pySignedParts? (['3', '0', '.', '5']) = some (false, 30, 5, 1) := by decide
    have h3 : pyFloat? (['3', '0', '.', '5']) = some (61 / 2) := by
      simp [pyFloat?, hp, ratOfParts]
      norm_num
    simp only [parse_time_str, parse_time_body, hs, h1, h3]
    norm_num [bankersRound, floorQ]

/-- C6 witness: the `H:MM:SS` branch at a concrete valid string. -/
theorem parse_time_valid_formats_witness :
    parse_time_str (TimeVal.str ("0:0:7")) =
      bankersRound ((0 : ℚ) * 3600 + (0 : ℚ) * 60 + 7) := by
  apply parse_time_valid_formats.1 ("0:0:7") (['0']) (['0']) (['7']) 0 0 7
  · decide
  · decide
  · decide
  · have hp : pySignedParts? (['7']) = some (false, 7, 0, 0) := by decide
    simp [pyFloat?, hp, ratOfParts]

/-- C10: a string holding a bare numeric literal with no colon (such as
`42` or `42.7`) splits into a single part, takes neither time branch and
falls through to the zero result; only inputs that are already numeric
take the round-and-return path. -/
theorem parse_time_single_part :
    parse_time_str (TimeVal.str ("42")) = 0 ∧
    parse_time_str (TimeVal.str ("42.7")) = 0 ∧
    (∀ s : String, (splitCols s.toList).length = 1 → parse_time_str (TimeVal.str s) = 0) ∧
    ∀ q : ℚ, parse_time_str (TimeVal.num q) = bankersRound q := by
  have hgen : ∀ s : String, (splitCols s.toList).length = 1 →
      parse_time_str (TimeVal.str s) = 0 := by
    intro s hlen
    obtain ⟨a, ha⟩ := List.length_eq_one.mp hlen
    simp only [parse_time_str, parse_time_body, ha, Option.getD_some]
  exact ⟨hgen ("42") (by decide), hgen ("42.7") (by decide), hgen, fun q => rfl⟩

/-- C10 witness: the single-part fallthrough at a concrete input. -/
theorem parse_time_single_part_witness :
    parse_time_str (TimeVal.str ("7")) = 0 :=
  parse_time_single_part.2.2.1 ("7") (by decide)

/-- C8: the split derivation returns `500 / speed` exactly for positive
present speeds and the 0 sentinel otherwise (zero, negative, missing or
NaN), with the claim's concrete values `2 → 250` and `0 → 0`. -/
theorem split_derivation :
    (∀ v : ℚ, 0 < v → splitFromSpeed (some v) = 500 / v) ∧
    (∀ v : ℚ, ¬ 0 < v → splitFromSpeed (some v) = 0) ∧
    splitFromSpeed none = 0 ∧
    splitFromSpeed (some 2) = 250 ∧
    splitFromSpeed (some 0) = 0 := by
  refine ⟨fun v hv => ?_, fun v hv => ?_, rfl, ?_, ?_⟩
  · simp [splitFromSpeed, hv]
  · simp [splitFromSpeed, hv]
  · norm_num [splitFromSpeed]
  · norm_num [splitFromSpeed]

/-- C8 witness: both guards of the derivation at concrete speeds. -/
theorem split_derivation_witness :
    splitFromSpeed (some 2) = 500 / 2 ∧ splitFromSpeed (some (-3)) = 0 :=
  ⟨split_derivation.1 2 (by norm_num), split_derivation.2.1 (-3) (by norm_num)⟩

/-- C3 failing input: on a joined sequence of length 2, the single user
action of dragging the crop-end slider to 0 leaves
`trimStart = trimEnd = 0`: the `start = end - 1` write-back is `-1`,
which the range input clamps to 0, so `trimStart < trimEnd` fails. -/
theorem trim_overlap_bug :
    (step 2 (initState 2) (Op.setTrimEnd 0)).trimStart = 0 ∧
    (step 2 (initState 2) (Op.setTrimEnd 0)).trimEnd = 0 ∧
    ¬ (step 2 (initState 2) (Op.setTrimEnd 0)).trimStart <
        (step 2 (initState 2) (Op.setTrimEnd 0)).trimEnd := by
  decide

/-- C4 failing input: over time-sorted seconds `[0, 58, 100]`, probing
100 and then scrubbing back to 60 makes the resolver keep the stale
`minDiff = 40` from index 2, break at index 0 (distance 60 > 40) and
answer index 2 (distance 40), while the brute-force scan returns the
true nearest index 1 (distance 2). -/
theorem audio_resolver_bug :
    runProbes [0, 58, 100] 0 [100, 60] = [2, 2] ∧
    bruteNearestIdx [0, 58, 100] 60 = 1 ∧
    absQ (60 - 100) = 40 ∧
    absQ (60 - 58) = 2 := by
  refine ⟨?_, ?_, ?_, ?_⟩
  · norm_num [runProbes, ontimeupdate, scanPoints, absQ, List.get?]
  · norm_num [bruteNearestIdx, bruteNearest, absQ]
  · norm_num [absQ]
  · norm_num [absQ]

theorem filterMap_some_eq_map {α β : Type} (f : α → β) (l : List α) :
    (l.filterMap fun a => some (f a)) = l.map f := by
  induction l with
  | nil => simp
  | cons a t ih => simp [List.filterMap_cons, ih]

/-- C7 counterexample: a position point 10.9 s after the start enters
the join with integer key 10 (`astype(int)` truncation), while the
claimed round-to-nearest value is 11. -/
theorem gpx_elapsed_round_cx :
    (gpxKeyed (parse_gpx [⟨0, 0, 0⟩, ⟨1, 1, 109 / 10⟩])).map GpxKeyed.sec = [0, 10] ∧
    roundNearestQ ((109 : ℚ) / 10 - 0) = 11 := by
  constructor
  · simp [gpxKeyed, parse_gpx]
    norm_num [truncQ]
  · norm_num [roundNearestQ, floorQ]

/-- C7 (amended): the integer `elapsedSeconds` the join uses for a
position sample is the timestamp difference to the first sample
truncated toward zero (`astype(int)`), not rounded to nearest. -/
theorem gpx_elapsed_trunc (p0 : RawPoint) (pts : List RawPoint) :
    (gpxKeyed (parse_gpx (p0 :: pts))).map GpxKeyed.sec =
      (p0 :: pts).map fun p => truncQ (p.time - p0.time) := by
  have hgen : ∀ l : List RawPoint,
      (gpxKeyed (l.map fun p =>
          (⟨p.latitude, p.longitude, some (p.time - p0.time)⟩ : GpxRow))).map GpxKeyed.sec =
        l.map fun p => truncQ (p.time - p0.time) := by
    intro l
    induction l with
    | nil => rfl
    | cons a t ih => simpa [gpxKeyed, List.filterMap_cons] using ih
  rw [parse_gpx]
  exact hgen (p0 :: pts)

/-- C7 witness: the amended truncation rule at a concrete one-point
stream. -/
theorem gpx_elapsed_trunc_witness :
    (gpxKeyed (parse_gpx [⟨0, 0, 0⟩])).map GpxKeyed.sec = [truncQ ((0 : ℚ) - 0)] :=
  gpx_elapsed_trunc ⟨0, 0, 0⟩ []

/-- C1: a performance sample (with key `p.sec`) contributes a row to the
merged output precisely when some position sample lies within 5 integer
seconds of it — equivalently, when its nearest position sample is at
most 5 s away; at distance 6 or more the row is absent entirely. -/
theorem merge_tolerance_boundary (gpx : List GpxRow) (csv : List CsvRow)
    (p : CsvKeyed) (hp : p ∈ csvKeyed csv) :
    (∃ r ∈ merge_datasets gpx csv, r.sec = p.sec ∧ r.rate = p.rate) ↔
      ∃ g ∈ gpxKeyed gpx, absZ (p.sec - g.sec) ≤ 5 := by
  constructor
  · rintro ⟨r, hr, hsec, hrate⟩
    rw [merge_datasets, List.mem_filterMap] at hr
    obtain ⟨q, hq, hjoin⟩ := hr
    simp only [joinRow] at hjoin
    cases hn : nearestPos q.sec (sortByKey GpxKeyed.sec (gpxKeyed gpx)) with
    | none =>
      rw [hn] at hjoin
      simp at hjoin
    | some g =>
      rw [hn] at hjoin
      simp only [] at hjoin
      split at hjoin
      · rename_i hd
        cases Option.some.inj hjoin
        refine ⟨g, ?_, ?_⟩
        · exact (mem_sortByKey _ _ _).mp (nearestPos_mem_min hn).1
        · simp only [] at hsec
          rw [hsec] at hd
          exact hd
      · simp at hjoin
  · rintro ⟨g, hg, hd⟩
    have hpS : p ∈ sortByKey CsvKeyed.sec (csvKeyed csv) := (mem_sortByKey _ _ _).mpr hp
    have hgS : g ∈ sortByKey GpxKeyed.sec (gpxKeyed gpx) := (mem_sortByKey _ _ _).mpr hg
    cases hn : nearestPos p.sec (sortByKey GpxKeyed.sec (gpxKeyed gpx)) with
    | none =>
      rw [nearestPos_eq_none.mp hn] at hgS
      simp at hgS
    | some b =>
      have hbm := nearestPos_mem_min hn
      have hble : absZ (p.sec - b.sec) ≤ 5 := le_trans (hbm.2 g hgS) hd
      refine ⟨⟨p.sec, p.rate, b.latitude, b.longitude⟩, ?_, rfl, rfl⟩
      rw [merge_datasets, List.mem_filterMap]
      refine ⟨p, hpS, ?_⟩
      simp only [joinRow, hn]
      rw [if_pos hble]

/-- C1 witness: a performance sample exactly 5 s from its only position
sample produces an output row. -/
theorem merge_tolerance_boundary_witness :
    ∃ r ∈ merge_datasets [{ latitude := 0, longitude := 0, seconds_elapsed := some 0 }]
        [{ seconds_elapsed := some 5, rate := 30 }],
      r.sec = 5 ∧ r.rate = 30 := by
  have hp : ({ sec := 5, rate := 30 } : CsvKeyed) ∈
      csvKeyed [{ seconds_elapsed := some 5, rate := 30 }] := by
    simp [csvKeyed]
    norm_num [truncQ]
  refine (merge_tolerance_boundary _ _ ({ sec := 5, rate := 30 }) hp).mpr ?_
  refine ⟨{ latitude := 0, longitude := 0, sec := 0 }, ?_, ?_⟩
  · simp [gpxKeyed]
    norm_num [truncQ]
  · norm_num [absZ]

/-- C2: when every performance sample (all with non-null keys) has an
exact-key position match, the merged output keeps every performance row
— its length equals the performance stream's — and each output row
carries the coordinates of a position sample with exactly its key. -/
theorem merge_exact_match (gpx : List GpxRow) (csv : List CsvRow)
    (hsome : ∀ p ∈ csv, p.seconds_elapsed ≠ none)
    (hexact : ∀ p ∈ csvKeyed csv, ∃ g ∈ gpxKeyed gpx, g.sec = p.sec) :
    (merge_datasets gpx csv).length = csv.length ∧
    ∀ r ∈ merge_datasets gpx csv, ∃ g ∈ gpxKeyed gpx,
      g.sec = r.sec ∧ r.latitude = g.latitude ∧ r.longitude = g.longitude := by
  have key : ∀ q ∈ sortByKey CsvKeyed.sec (csvKeyed csv),
      ∃ b, nearestPos q.sec (sortByKey GpxKeyed.sec (gpxKeyed gpx)) = some b ∧
        b ∈ gpxKeyed gpx ∧ b.sec = q.sec := by
    intro q hq
    have hqk : q ∈ csvKeyed csv := (mem_sortByKey _ _ _).mp hq
    obtain ⟨g, hg, hgsec⟩ := hexact q hqk
    have hgS : g ∈ sortByKey GpxKeyed.sec (gpxKeyed gpx) := (mem_sortByKey _ _ _).mpr hg
    cases hn : nearestPos q.sec (sortByKey GpxKeyed.sec (gpxKeyed gpx)) with
    | none =>
      rw [nearestPos_eq_none.mp hn] at hgS
      simp at hgS
    | some b =>
      have hbm := nearestPos_mem_min hn
      have hb0 : absZ (q.sec - b.sec) ≤ 0 := by
        have hle := hbm.2 g hgS
        rw [hgsec, absZ_self_sub] at hle
        exact hle
      have hbsec : b.sec = q.sec := by
        have := absZ_eq_zero hb0
        omega
      exact ⟨b, rfl, (mem_sortByKey _ _ _).mp hbm.1, hbsec⟩
  constructor
  · rw [merge_datasets]
    rw [filterMap_length_of_isSome]
    · rw [length_sortByKey]
      rw [csvKeyed, filterMap_length_of_isSome]
      intro p hp
      cases hs : p.seconds_elapsed with
      | none => exact absurd hs (hsome p hp)
      | some s => simp [hs]
    · intro q hq
      obtain ⟨b, hn, hbk, hbsec⟩ := key q hq
      simp only [joinRow, hn]
      rw [if_pos]
      · simp
      · rw [hbsec, absZ_self_sub]
        norm_num
  · intro r hr
    rw [merge_datasets, List.mem_filterMap] at hr
    obtain ⟨q, hq, hjoin⟩ := hr
    obtain ⟨b, hn, hbk, hbsec⟩ := key q hq
    simp only [joinRow, hn] at hjoin
    split at hjoin
    · cases Option.some.inj hjoin
      exact ⟨b, hbk, by simp [hbsec], rfl, rfl⟩
    · simp at hjoin

/-- C2 witness: one performance sample with an exact-time position match
survives the join (length preserved). -/
theorem merge_exact_match_witness :
    (merge_datasets [{ latitude := 1, longitude := 2, seconds_elapsed := some 0 }]
      [{ seconds_elapsed := some 0, rate := 20 }]).length = 1 := by
  refine (merge_exact_match _ _ ?_ ?_).1
  · intro p hp
    simp at hp
    rw [hp]
    simp
  · intro p hp
    simp [csvKeyed] at hp
    refine ⟨{ latitude := 1, longitude := 2, sec := truncQ 0 }, ?_, ?_⟩
    · simp [gpxKeyed]
    · rw [hp]

/-- C9: the degenerate inputs produce empty outputs instead of raising:
an empty point list normalizes to an empty stream, and the join returns
`[]` for an empty position stream, for an empty performance stream, and
when every candidate pair is farther than the 5-second tolerance. -/
theorem merge_degenerate :
    parse_gpx [] = [] ∧
    (∀ csv : List CsvRow, merge_datasets [] csv = []) ∧
    (∀ gpx : List GpxRow, merge_datasets gpx [] = []) ∧
    ∀ (gpx : List GpxRow) (csv : List CsvRow),
      (∀ p ∈ csvKeyed csv, ∀ g ∈ gpxKeyed gpx, 5 < absZ (p.sec - g.sec)) →
      merge_datasets gpx csv = [] := by
  refine ⟨rfl, fun csv => ?_, fun gpx => rfl, fun gpx csv h => ?_⟩
  · rw [merge_datasets]
    apply filterMap_eq_nil_of_none
    intro q hq
    rfl
  · rw [merge_datasets]
    apply filterMap_eq_nil_of_none
    intro q hq
    have hqk : q ∈ csvKeyed csv := (mem_sortByKey _ _ _).mp hq
    simp only [joinRow]
    cases hn : nearestPos q.sec (sortByKey GpxKeyed.sec (gpxKeyed gpx)) with
    | none => rfl
    | some b =>
      have hbk : b ∈ gpxKeyed gpx := (mem_sortByKey _ _ _).mp (nearestPos_mem_min hn).1
      show (if absZ (q.sec - b.sec) ≤ 5 then
        some (⟨q.sec, q.rate, b.latitude, b.longitude⟩ : MergedRow) else none) = none
      rw [if_neg (not_le.mpr (h q hqk b hbk))]

/-- C9 witness: one pair 10 s apart (beyond the tolerance) merges to the
empty output. -/
theorem merge_degenerate_witness :
    merge_datasets [{ latitude := 0, longitude := 0, seconds_elapsed := some 0 }]
      [{ seconds_elapsed := some 10, rate := 1 }] = [] := by
  apply merge_degenerate.2.2.2
  intro p hp g hg
  simp [csvKeyed] at hp
  simp [gpxKeyed] at hg
  rw [hp, hg]
  norm_num [truncQ, absZ]

end CoxOrb
